import Mathlib

/-!
# Verification of the post page and view-counter core of yzhx.xyz

This development shallowly embeds the server-observable request-time logic of
the site: the post resolver and the view-counter read of `PostPage` in
`src/app/layout.tsx` (the `posts/[slug]` page component), the static-params
generator, and the view-recording increment described in the design document
(whose client/API source is not part of the provided sources and is therefore
modelled from the spec).

The external key-value store is modelled as a partial map from string keys to
integers; the outcome of the single `redis.get` awaited during a render is an
explicit `Except` value, so that both a successful read (possibly of an absent
key) and a store failure can be analysed.
-/

namespace Yzhx

/-- The rendered body of a post as produced by the content pipeline; the page
only consumes its compiled `code` field (`post.body.code`). -/
structure PostBody where
  code : String
  deriving Repr, DecidableEq

/-- A post record of the static content index (`contentlayer/generated`),
with the fields the spec lists for the content index:
{slug, published, title, description, date, author, url, repository, body}. -/
structure Post where
  slug : String
  published : Bool
  title : String
  description : String
  date : String
  author : String
  url : Option String
  repository : Option String
  body : PostBody
  deriving Repr, DecidableEq

/-- The external key-value store: a partial map from keys to integer values.
Values are `Int` so that nothing about non-negativity is assumed; it has to be
proved from the operations this system performs. -/
def Store : Type := String → Option Int

/-- The store with no keys. -/
def emptyStore : Store := fun _ => none

/-- The composite key used by the page read:
`["pageviews", "posts", slug].join(":")` in `src/app/layout.tsx`. -/
def pageviewKey (slug : String) : String :=
  String.intercalate ":" ["pageviews", "posts", slug]

/-- The post resolver inside `PostPage` (`src/app/layout.tsx`):
`allPosts.find((post) => post.slug === slug)`. JavaScript `find` returns the
first element satisfying the predicate or `undefined`; `===` on strings is
exact, case-sensitive equality. -/
def resolve (allPosts : List Post) (slug : String) : Option Post :=
  allPosts.find? (fun post => post.slug == slug)

/-- `generateStaticParams` (`src/app/layout.tsx`): the published posts'
slugs. -/
def generateStaticParams (allPosts : List Post) : List String :=
  (allPosts.filter (fun p => p.published)).map (fun p => p.slug)

/-- An operation issued against the external store, as named by the spec's
protocol section: `GET key` or `INCR key`. -/
inductive StoreOp where
  | get (key : String)
  | incr (key : String)
  deriving Repr, DecidableEq

/-- What the page hands to its header and article once a post is found:
the post's title (via `<Header post={post} views={views} />`), the computed
`views` value, the slug passed to `<ReportView slug={post.slug} />`, and the
MDX code rendered by `<Mdx code={post.body.code} />`. -/
structure PageOutput where
  headerTitle : String
  views : Int
  reportSlug : String
  bodyCode : String
  deriving Repr, DecidableEq

/-- Possible outcomes of rendering `/posts/{slug}` on the server: a rendered
page, the `notFound()` signal, or a failed render when an awaited store call
rejects with an uncaught error. -/
inductive RenderOutcome where
  | page (p : PageOutput)
  | notFound
  | failed (err : String)
  deriving Repr, DecidableEq

/-- The `PostPage` server component of `src/app/layout.tsx`, embedded over an
explicit result `g` of the one awaited store `GET` for `pageviewKey slug`:

```
const post = allPosts.find((post) => post.slug === slug);
if (!post) { notFound(); }
const views = (await redis.get<number>(["pageviews","posts",slug].join(":"))) ?? 0;
return (<div><Header post={post} views={views} />
  <ReportView slug={post.slug} /> ... <Mdx code={post.body.code} /></div>);
```

`?? 0` applies only to a fulfilled `GET` whose value is `null` (absent key);
a rejected `GET` (store unreachable or an error reply) propagates out of the
component, so the render fails.  The second component is the trace of store
operations the render issued. -/
def PostPage (allPosts : List Post) (slug : String)
    (g : Except String (Option Int)) : RenderOutcome × List StoreOp :=
  match allPosts.find? (fun post => post.slug == slug) with
  | none => (RenderOutcome.notFound, [])
  | some post =>
    match g with
    | Except.error e => (RenderOutcome.failed e, [StoreOp.get (pageviewKey slug)])
    | Except.ok v =>
      (RenderOutcome.page
        { headerTitle := post.title
          views := v.getD 0
          reportSlug := post.slug
          bodyCode := post.body.code },
       [StoreOp.get (pageviewKey slug)])

/-- The view-count read of `PostPage` on a reachable store (a fulfilled `GET`):
`(await redis.get<number>(["pageviews","posts",slug].join(":"))) ?? 0`. -/
def getViewCount (s : Store) (slug : String) : Int :=
  (s (pageviewKey slug)).getD 0

/-- Modelled from the spec: `recordView(slug)` — its source (the client-side
`ReportView` component and the `/api/incr` route it calls) is not among the
provided sources.  Per the spec it "atomically increments the integer at key
`pageviews:posts:{slug}` in the external store by 1, creating it at value 1 if
absent" (Redis `INCR` semantics). -/
def recordView (s : Store) (slug : String) : Store :=
  fun k =>
    if k = pageviewKey slug then some ((s k).getD 0 + 1) else s k

/-- The effect of one store operation on the store: `GET` leaves it unchanged,
`INCR` bumps the key (creating it at 1), mirroring the store protocol the spec
names. -/
def applyOp (s : Store) : StoreOp → Store
  | StoreOp.get _ => s
  | StoreOp.incr k => fun k' => if k' = k then some ((s k').getD 0 + 1) else s k'

/-- The effect of a sequence of store operations, first to last. -/
def applyOps (s : Store) (ops : List StoreOp) : Store :=
  ops.foldl applyOp s

/-- An operation of this system against the store: a view-report increment or
a render-time read.  Concurrent executions interleave into some sequence of
these atomic store operations. -/
inductive SysOp where
  | record (slug : String)
  | read (slug : String)
  deriving Repr, DecidableEq

/-- Running one system operation on the store: `record` performs the `INCR`,
`read` performs the side-effect-free `GET`. -/
def runOp (s : Store) : SysOp → Store
  | SysOp.record slug => recordView s slug
  | SysOp.read _ => s

/-- Running a sequence of system operations, first to last. -/
def runOps (s : Store) (ops : List SysOp) : Store :=
  ops.foldl runOp s

/-- A store state reachable by this system from the empty store. -/
def Reachable (s : Store) : Prop :=
  ∃ ops : List SysOp, s = runOps emptyStore ops

/-- Modelled from the spec: one complete page-view of `/posts/{slug}` — the
server render (whose single `GET` is fulfilled from the current store) followed
by the client-side `ReportView` increment, which the spec says fires on page
load, after the render, with the rendered page's `post.slug`.  No increment
fires when the render did not produce a page. -/
def pageViewFlow (allPosts : List Post) (s : Store) (slug : String) :
    RenderOutcome × Store :=
  match PostPage allPosts slug (Except.ok (s (pageviewKey slug))) with
  | (RenderOutcome.page p, _) => (RenderOutcome.page p, recordView s p.reportSlug)
  | (out, _) => (out, s)

/-- The views value a render outcome displays, when it is a page. -/
def displayedViews : RenderOutcome → Option Int
  | RenderOutcome.page p => some p.views
  | _ => none

/-- All values present in a store are non-negative. -/
def StoreNonneg (s : Store) : Prop :=
  ∀ k v, s k = some v → 0 ≤ v

/-- A concrete index entry: the published post shipped with the repository
(front matter of the `contract-creation` document). -/
def demoPost : Post :=
  { slug := "contract-creation"
    published := true
    title := "CREATE, CREATE2, CREATE3"
    description := "understanding Solidity contract creation"
    date := "2023-12-22"
    author := "22X"
    url := some "https://0xmacintosh.ca/blog/contract-creation"
    repository := none
    body := { code := "compiled-mdx" } }

/-- A concrete index entry whose `published` flag is false, exercising the
resolver on an unpublished slug. -/
def draftPost : Post :=
  { slug := "draft-notes"
    published := false
    title := "Draft notes"
    description := "an unpublished draft"
    date := "2024-01-01"
    author := "22X"
    url := none
    repository := none
    body := { code := "draft-mdx" } }

/-! ## Helper lemmas about the resolver -/

theorem pageviewKey_eq (slug : String) :
    pageviewKey slug = "pageviews:posts:" ++ slug := by
  simp [pageviewKey, String.intercalate, String.intercalate.go]

theorem resolve_slug_eq {posts : List Post} {slug : String} {p : Post}
    (h : resolve posts slug = some p) : p ∈ posts ∧ p.slug = slug := by
  refine ⟨List.mem_of_find?_eq_some h, ?_⟩
  have hp := List.find?_some h
  simpa using hp

theorem resolve_eq_none_iff {posts : List Post} {slug : String} :
    resolve posts slug = none ↔ ∀ p ∈ posts, p.slug ≠ slug := by
  simp [resolve, List.find?_eq_none]

theorem resolve_exists {posts : List Post} {slug : String}
    (h : ∃ p ∈ posts, p.slug = slug) :
    ∃ q ∈ posts, resolve posts slug = some q ∧ q.slug = slug := by
  have hs : (List.find? (fun post => post.slug == slug) posts).isSome := by
    rw [List.find?_isSome]
    obtain ⟨p, hp, he⟩ := h
    exact ⟨p, hp, by simpa using he⟩
  obtain ⟨q, hq⟩ := Option.isSome_iff_exists.mp hs
  have hq' : resolve posts slug = some q := hq
  have h2 := resolve_slug_eq hq'
  exact ⟨q, h2.1, hq', h2.2⟩

/-! ## Helper lemmas about store operations -/

theorem storeNonneg_empty : StoreNonneg emptyStore := by
  intro k v h
  simp [emptyStore] at h

theorem storeNonneg_runOp {s : Store} (h : StoreNonneg s) (op : SysOp) :
    StoreNonneg (runOp s op) := by
  cases op with
  | read slug => exact h
  | record slug =>
    intro k v hk
    simp only [runOp, recordView] at hk
    by_cases hke : k = pageviewKey slug
    · rw [if_pos hke] at hk
      cases hsk : s k with
      | none => simp [hsk] at hk; omega
      | some w =>
        have hw := h k w hsk
        simp [hsk] at hk
        omega
    · rw [if_neg hke] at hk
      exact h k v hk

theorem storeNonneg_runOps {s : Store} (h : StoreNonneg s) (ops : List SysOp) :
    StoreNonneg (runOps s ops) := by
  induction ops generalizing s with
  | nil => exact h
  | cons op rest ih => exact ih (storeNonneg_runOp h op)

theorem reachable_nonneg {s : Store} (h : Reachable s) : StoreNonneg s := by
  obtain ⟨ops, rfl⟩ := h
  exact storeNonneg_runOps storeNonneg_empty ops

theorem runOp_le (s : Store) (op : SysOp) (k : String) :
    (s k).getD 0 ≤ (runOp s op k).getD 0 := by
  cases op with
  | read slug => exact le_refl _
  | record slug =>
    simp only [runOp, recordView]
    by_cases hke : k = pageviewKey slug
    · rw [if_pos hke]
      cases s k <;> simp
    · rw [if_neg hke]

theorem runOp_some (s : Store) (op : SysOp) (k : String) (v : Int)
    (h : s k = some v) : ∃ v', runOp s op k = some v' ∧ v ≤ v' := by
  cases op with
  | read slug => exact ⟨v, h, le_refl v⟩
  | record slug =>
    simp only [runOp, recordView]
    by_cases hke : k = pageviewKey slug
    · rw [if_pos hke]
      exact ⟨(s k).getD 0 + 1, rfl, by simp [h]⟩
    · rw [if_neg hke]
      exact ⟨v, h, le_refl v⟩

theorem runOps_le (ops : List SysOp) (s : Store) (k : String) :
    (s k).getD 0 ≤ (runOps s ops k).getD 0 := by
  induction ops generalizing s with
  | nil => exact le_refl _
  | cons op rest ih => exact le_trans (runOp_le s op k) (ih (runOp s op))

theorem runOps_some (ops : List SysOp) (s : Store) (k : String) (v : Int)
    (h : s k = some v) : ∃ v', runOps s ops k = some v' ∧ v ≤ v' := by
  induction ops generalizing s v with
  | nil => exact ⟨v, h, le_refl v⟩
  | cons op rest ih =>
    obtain ⟨w, hw, hvw⟩ := runOp_some s op k v h
    obtain ⟨v', hv', hwv'⟩ := ih (runOp s op) w hw
    exact ⟨v', hv', le_trans hvw hwv'⟩

theorem reachable_runOps {s : Store} (h : Reachable s) (ops : List SysOp) :
    Reachable (runOps s ops) := by
  obtain ⟨l, rfl⟩ := h
  exact ⟨l ++ ops, by simp [runOps, List.foldl_append]⟩

/-! ## Claim theorems -/

/-- C1 (counterexample): with the shipped published post resolved and the
store `GET` rejecting, `PostPage` does not render a page displaying 0 views:
the uncaught rejection fails the render. -/
theorem store_error_fails_render_cex :
    (PostPage [demoPost] "contract-creation" (Except.error "store unreachable")).1 =
      RenderOutcome.failed "store unreachable" ∧
    displayedViews
      (PostPage [demoPost] "contract-creation" (Except.error "store unreachable")).1 =
      none := ⟨rfl, rfl⟩

/-- C1 (amended): during a render of an existing post, a fulfilled `GET`
whose value is absent (null) yields a page displaying 0 views, but a `GET`
that returns an error is not caught: the error propagates and the render
fails instead of displaying 0. -/
theorem render_absent_key_zero_error_propagates
    (posts : List Post) (slug : String) (post : Post) (e : String)
    (h : resolve posts slug = some post) :
    (PostPage posts slug (Except.ok none)).1 =
      RenderOutcome.page
        { headerTitle := post.title, views := 0,
          reportSlug := post.slug, bodyCode := post.body.code } ∧
    (PostPage posts slug (Except.error e)).1 = RenderOutcome.failed e := by
  unfold resolve at h
  constructor <;> simp [PostPage, h]

theorem render_absent_key_zero_error_propagates_witness :
    (PostPage [demoPost] "contract-creation" (Except.ok none)).1 =
      RenderOutcome.page
        { headerTitle := demoPost.title, views := 0,
          reportSlug := demoPost.slug, bodyCode := demoPost.body.code } ∧
    (PostPage [demoPost] "contract-creation" (Except.error "down")).1 =
      RenderOutcome.failed "down" :=
  render_absent_key_zero_error_propagates [demoPost] "contract-creation"
    demoPost "down" rfl

/-- C2 (counterexample): a slug present in the index with `published = false`
does not resolve to not-found; `resolve` returns the unpublished post. -/
theorem resolve_unpublished_found_cex :
    resolve [draftPost] "draft-notes" = some draftPost ∧
    draftPost.published = false ∧
    resolve [draftPost] "draft-notes" ≠ none := by
  refine ⟨rfl, rfl, ?_⟩
  intro hc
  simp [resolve, draftPost] at hc

/-- C2 (amended): for every slug present in the static content index —
whether published or not — `resolve(slug)` returns a matching post; for every
slug matching no index entry it returns not-found.  (`generateStaticParams`,
not `resolve`, is where the `published` filter lives.) -/
theorem resolve_matches_ignoring_published (posts : List Post) (slug : String) :
    ((∃ p ∈ posts, p.slug = slug) →
      ∃ q ∈ posts, resolve posts slug = some q ∧ q.slug = slug) ∧
    ((∀ p ∈ posts, p.slug ≠ slug) → resolve posts slug = none) ∧
    generateStaticParams posts =
      (posts.filter (fun p => p.published)).map (fun p => p.slug) :=
  ⟨resolve_exists, fun h => resolve_eq_none_iff.mpr h, rfl⟩

theorem resolve_matches_ignoring_published_witness :
    ∃ q ∈ [draftPost], resolve [draftPost] "draft-notes" = some q ∧
      q.slug = "draft-notes" :=
  (resolve_matches_ignoring_published [draftPost] "draft-notes").1
    ⟨draftPost, by simp, rfl⟩

/-- C3: `resolve` matches by exact, case-sensitive string equality (any
returned post has slug equal, as strings, to the request), returns the
distinct not-found signal exactly when no index entry matches, and on
not-found `PostPage` yields `RenderOutcome.notFound` (not a failure) while
issuing no store operation. -/
theorem resolve_exact_match_notFound (posts : List Post) (slug : String)
    (g : Except String (Option Int)) :
    (∀ p, resolve posts slug = some p → p ∈ posts ∧ p.slug = slug) ∧
    (resolve posts slug = none ↔ ∀ p ∈ posts, p.slug ≠ slug) ∧
    (resolve posts slug = none →
      (PostPage posts slug g).1 = RenderOutcome.notFound ∧
      (PostPage posts slug g).2 = []) := by
  refine ⟨fun p h => resolve_slug_eq h, resolve_eq_none_iff, fun h => ?_⟩
  unfold resolve at h
  simp [PostPage, h]

theorem resolve_exact_match_notFound_witness :
    resolve [demoPost] "Contract-Creation" = none ∧
    (PostPage [demoPost] "Contract-Creation" (Except.ok (some 7))).1 =
      RenderOutcome.notFound := by
  have t := resolve_exact_match_notFound [demoPost] "Contract-Creation"
    (Except.ok (some 7))
  have h0 : ∀ p ∈ [demoPost], p.slug ≠ "Contract-Creation" := by decide
  have hn := t.2.1.mpr h0
  exact ⟨hn, (t.2.2 hn).1⟩

/-- C4: the render-time read returns exactly 0 when the key is absent, and on
every store state reachable by this system the returned count is a
non-negative integer. -/
theorem getViewCount_absent_zero_nonneg (s : Store) (slug : String) :
    (s (pageviewKey slug) = none → getViewCount s slug = 0) ∧
    (Reachable s → 0 ≤ getViewCount s slug) := by
  constructor
  · intro h
    simp [getViewCount, h]
  · intro h
    have hn := reachable_nonneg h
    unfold getViewCount
    cases hk : s (pageviewKey slug) with
    | none => simp
    | some v => simpa using hn _ v hk

theorem getViewCount_absent_zero_nonneg_witness :
    getViewCount emptyStore "contract-creation" = 0 ∧
    0 ≤ getViewCount emptyStore "contract-creation" :=
  ⟨(getViewCount_absent_zero_nonneg emptyStore "contract-creation").1 rfl,
   (getViewCount_absent_zero_nonneg emptyStore "contract-creation").2 ⟨[], rfl⟩⟩

/-- C5: both the render-time read and the view-recording increment address
the store at exactly the key `"pageviews:posts:" ++ slug`: the key the page
builds by joining is that string, the only operation a successful resolution
issues is a `GET` of it, and `recordView` touches that key and no other. -/
theorem store_key_is_pageviews_posts_slug
    (posts : List Post) (slug : String) (g : Except String (Option Int))
    (s : Store) (post : Post) (h : resolve posts slug = some post) :
    pageviewKey slug = "pageviews:posts:" ++ slug ∧
    (PostPage posts slug g).2 = [StoreOp.get (pageviewKey slug)] ∧
    (∀ k, k ≠ pageviewKey slug → recordView s slug k = s k) ∧
    recordView s slug (pageviewKey slug) =
      some ((s (pageviewKey slug)).getD 0 + 1) := by
  refine ⟨pageviewKey_eq slug, ?_, ?_, ?_⟩
  · unfold resolve at h
    cases g <;> simp [PostPage, h]
  · intro k hk
    simp [recordView, hk]
  · simp [recordView]

theorem store_key_is_pageviews_posts_slug_witness :
    pageviewKey "contract-creation" = "pageviews:posts:" ++ "contract-creation" ∧
    (PostPage [demoPost] "contract-creation" (Except.ok none)).2 =
      [StoreOp.get (pageviewKey "contract-creation")] :=
  ⟨(store_key_is_pageviews_posts_slug [demoPost] "contract-creation"
      (Except.ok none) emptyStore demoPost rfl).1,
   (store_key_is_pageviews_posts_slug [demoPost] "contract-creation"
      (Except.ok none) emptyStore demoPost rfl).2.1⟩

/-- C6: one successful `recordView(slug)` raises the count read back by
`getViewCount` by exactly 1, creating the key at value 1 when it was absent
and taking it from `v` to `v + 1` when it held `v`. -/
theorem recordView_increments_by_one (s : Store) (slug : String) :
    getViewCount (recordView s slug) slug = getViewCount s slug + 1 ∧
    (s (pageviewKey slug) = none →
      recordView s slug (pageviewKey slug) = some 1) ∧
    (∀ v, s (pageviewKey slug) = some v →
      recordView s slug (pageviewKey slug) = some (v + 1)) := by
  refine ⟨?_, fun h => ?_, fun v h => ?_⟩
  · simp [getViewCount, recordView]
  · simp [recordView, h]
  · simp [recordView, h]

theorem recordView_increments_by_one_witness :
    getViewCount (recordView emptyStore "x") "x" = getViewCount emptyStore "x" + 1 ∧
    recordView emptyStore "x" (pageviewKey "x") = some 1 :=
  ⟨(recordView_increments_by_one emptyStore "x").1,
   (recordView_increments_by_one emptyStore "x").2.1 rfl⟩

/-- C7: over any sequence of this system's store operations (any interleaving
of concurrent `recordView` and `getViewCount` calls is such a sequence), the
count at every key is monotonically non-decreasing, a present key is never
deleted and never decreased, and from a reachable store the count stays
non-negative. -/
theorem viewCount_monotone_nonneg (s : Store) (ops : List SysOp) (k : String) :
    (s k).getD 0 ≤ (runOps s ops k).getD 0 ∧
    (∀ v, s k = some v → ∃ v', runOps s ops k = some v' ∧ v ≤ v') ∧
    (Reachable s → 0 ≤ (runOps s ops k).getD 0) := by
  refine ⟨runOps_le ops s k, fun v h => runOps_some ops s k v h, fun h => ?_⟩
  have hn := reachable_nonneg (reachable_runOps h ops)
  cases hk : runOps s ops k with
  | none => simp
  | some v => simpa using hn _ v hk

theorem viewCount_monotone_nonneg_witness :
    ∃ v', runOps (runOps emptyStore [SysOp.record "x"]) [SysOp.record "x"]
        (pageviewKey "x") = some v' ∧ (1 : Int) ≤ v' :=
  (viewCount_monotone_nonneg (runOps emptyStore [SysOp.record "x"])
    [SysOp.record "x"] (pageviewKey "x")).2.1 1 (by decide)

/-- C8: in a page view of a resolved post, the displayed count is the store
value read before the view is recorded: the page shows exactly the prior
count, and after the client-side increment the stored count is one more than
what was displayed. -/
theorem render_displays_prior_count
    (posts : List Post) (s : Store) (slug : String) (post : Post)
    (h : resolve posts slug = some post) :
    displayedViews (pageViewFlow posts s slug).1 = some (getViewCount s slug) ∧
    getViewCount (pageViewFlow posts s slug).2 slug = getViewCount s slug + 1 := by
  have hslug : post.slug = slug := (resolve_slug_eq h).2
  unfold resolve at h
  simp [pageViewFlow, PostPage, h, displayedViews, getViewCount, hslug,
    recordView]

theorem render_displays_prior_count_witness :
    displayedViews (pageViewFlow [demoPost] emptyStore "contract-creation").1 =
      some (getViewCount emptyStore "contract-creation") ∧
    getViewCount (pageViewFlow [demoPost] emptyStore "contract-creation").2
        "contract-creation" =
      getViewCount emptyStore "contract-creation" + 1 :=
  render_displays_prior_count [demoPost] emptyStore "contract-creation"
    demoPost rfl

/-- C9: the server-side render path issues only `GET` operations against the
store, and replaying its operation trace leaves the store — every key —
unchanged. -/
theorem render_path_no_mutation (posts : List Post) (slug : String)
    (g : Except String (Option Int)) (s : Store) :
    applyOps s (PostPage posts slug g).2 = s ∧
    ∀ op ∈ (PostPage posts slug g).2, ∃ k, op = StoreOp.get k := by
  unfold PostPage
  cases hf : posts.find? (fun post => post.slug == slug) with
  | none => simp [applyOps]
  | some post => cases g <;> simp [applyOps, applyOp]

theorem render_path_no_mutation_witness :
    applyOps emptyStore
      (PostPage [demoPost] "contract-creation" (Except.ok none)).2 = emptyStore :=
  (render_path_no_mutation [demoPost] "contract-creation" (Except.ok none)
    emptyStore).1

/-- C10: when the slug matches no post, `PostPage` signals not-found having
issued no store operation at all: the store is neither read nor incremented
for an unresolved slug. -/
theorem notFound_before_store_access (posts : List Post) (slug : String)
    (g : Except String (Option Int)) (h : resolve posts slug = none) :
    (PostPage posts slug g).2 = [] ∧
    (PostPage posts slug g).1 = RenderOutcome.notFound := by
  unfold resolve at h
  simp [PostPage, h]

theorem notFound_before_store_access_witness :
    (PostPage [demoPost] "does-not-exist" (Except.ok (some 3))).2 = [] ∧
    (PostPage [demoPost] "does-not-exist" (Except.ok (some 3))).1 =
      RenderOutcome.notFound :=
  notFound_before_store_access [demoPost] "does-not-exist"
    (Except.ok (some 3)) (by decide)

end Yzhx
